import Mathlib

/-
  Verification development for the mcp-server repository.

  Shallow embedding of the tool-discovery / state-management subsystem:
  JavaScript strings are modelled as `List Char` (named `JStr`), JavaScript
  `null`-or-value results as `Option`, thrown exceptions as `Except`.
  External library primitives (the Node crypto AES-256-CBC pipeline, the
  provider SDK calls, the individual tool implementations) are modelled as
  parameters with their contracts stated as hypotheses where a claim needs
  them; everything else is translated directly from the source files.
-/

namespace MCP

/-- JavaScript strings, modelled as lists of characters. -/
abbrev JStr := List Char

/-- Configuration categories, from the ConfigurationSchema enum. -/
inductive ConfigCategory where
  | api_key
  | connection
  | server
  | feature_flag
deriving DecidableEq, Repr

/-- One document of the Configuration collection (models/Configuration).
Metadata timestamps are dropped: no claim mentions them. -/
structure Configuration where
  key : String
  value : JStr
  isEncrypted : Bool
  category : ConfigCategory
  description : Option String
deriving DecidableEq, Repr

/- ---------------------------------------------------------------------
   Secret store: the encryption pipeline of models/Configuration.
   The repository composes, around the Node crypto library:
   hex encoding of the iv and the ciphertext, the "ivHex:cipherHex"
   storage format, the split-on-colon parse with a length check, and a
   catch-all that converts any decryption failure into null.
--------------------------------------------------------------------- -/

/-- Hex digit for a value below 16, as Buffer hex encoding prints it:
digits zero to nine then lowercase letters (ASCII codes 48 to 57 and 97
to 102). -/
def hexDigit (n : Nat) : Char :=
  Char.ofNat (if n < 10 then 48 + n else 87 + n)

/-- Hex encoding of one byte: two hex digits. -/
def byteToHex (b : Nat) : JStr := [hexDigit (b / 16), hexDigit (b % 16)]

/-- Hex encoding of a byte list, as produced by toString hex on a Buffer. -/
def toHex (bs : List Nat) : JStr := (bs.map byteToHex).flatten

/-- Value of a hex digit character (digits, lowercase or uppercase
letters, as Buffer accepts); none for a non-hex character. -/
def hexVal (c : Char) : Option Nat :=
  if 48 ≤ c.toNat ∧ c.toNat ≤ 57 then some (c.toNat - 48)
  else if 97 ≤ c.toNat ∧ c.toNat ≤ 102 then some (c.toNat - 87)
  else if 65 ≤ c.toNat ∧ c.toNat ≤ 70 then some (c.toNat - 55)
  else none

/-- Hex decoding of a character list into bytes; fails on malformed input
(the JS Buffer is more lenient on garbage, but every value this code path
ever parses was produced by toHex, where the two agree). -/
def fromHex : JStr → Option (List Nat)
  | [] => some []
  | c1 :: c2 :: rest => do
      let h ← hexVal c1
      let l ← hexVal c2
      let bs ← fromHex rest
      pure ((h * 16 + l) :: bs)
  | [_] => none

/-- JavaScript String.split on a one-character separator. -/
def splitOnChar (sep : Char) : JStr → List JStr
  | [] => [[]]
  | c :: rest =>
    let r := splitOnChar sep rest
    if c = sep then [] :: r
    else
      match r with
      | [] => [[c]]
      | h :: t => (c :: h) :: t

/-- Abstract model of the external Node crypto pipeline used by
models/Configuration: createCipheriv / createDecipheriv with
aes-256-cbc, the sha256 key derivation and the utf8 codec folded in.
enc maps a key string, an iv and a plaintext to ciphertext bytes; dec
returns none when the library call throws (bad padding, wrong key). -/
structure CipherModel where
  enc : String → List Nat → JStr → List Nat
  dec : String → List Nat → List Nat → Option JStr

/-- Encryption step of the ConfigurationSchema pre-save hook (part_017
lines 113 to 125): draw an iv, encrypt, store "ivHex:cipherHex". -/
def encryptValue (cm : CipherModel) (key : String) (iv : List Nat) (plain : JStr) : JStr :=
  toHex iv ++ ':' :: toHex (cm.enc key iv plain)

/-- ConfigurationSchema.methods.getDecryptedValue (part_017 lines 136 to
177): unencrypted values are returned raw; otherwise split on the colon,
require exactly two parts, hex-decode and decrypt; every failure is
caught and returned as null (none). -/
def getDecryptedValue (cm : CipherModel) (ekey : String) (cfg : Configuration) : Option JStr :=
  if !cfg.isEncrypted then some cfg.value
  else
    match splitOnChar ':' cfg.value with
    | [p0, p1] =>
      match fromHex p0, fromHex p1 with
      | some iv, some ct => cm.dec ekey iv ct
      | _, _ => none
    | _ => none

theorem hexVal_hexDigit : ∀ n < 16, hexVal (hexDigit n) = some n := by decide

theorem hexDigit_ne_colon : ∀ n < 16, hexDigit n ≠ ':' := by decide

theorem colon_not_mem_byteToHex {b : Nat} (hb : b < 256) : ':' ∉ byteToHex b := by
  have h1 : b / 16 < 16 := Nat.div_lt_of_lt_mul hb
  have h2 : b % 16 < 16 := Nat.mod_lt _ (by norm_num)
  intro hmem
  simp only [byteToHex, List.mem_cons, List.not_mem_nil, or_false] at hmem
  rcases hmem with h | h
  · exact hexDigit_ne_colon _ h1 h.symm
  · exact hexDigit_ne_colon _ h2 h.symm

theorem colon_not_mem_toHex {bs : List Nat} (h : ∀ b ∈ bs, b < 256) : ':' ∉ toHex bs := by
  intro hmem
  rw [toHex, List.mem_flatten] at hmem
  obtain ⟨l, hl, hcl⟩ := hmem
  rw [List.mem_map] at hl
  obtain ⟨b, hb, rfl⟩ := hl
  exact colon_not_mem_byteToHex (h b hb) hcl

theorem fromHex_toHex {bs : List Nat} (h : ∀ b ∈ bs, b < 256) : fromHex (toHex bs) = some bs := by
  induction bs with
  | nil => rfl
  | cons b rest ih =>
      have hb : b < 256 := h b (List.mem_cons_self _ _)
      have h1 : b / 16 < 16 := Nat.div_lt_of_lt_mul hb
      have h2 : b % 16 < 16 := Nat.mod_lt _ (by norm_num)
      have hrest : ∀ x ∈ rest, x < 256 := fun x hx => h x (List.mem_cons_of_mem _ hx)
      show fromHex (hexDigit (b / 16) :: hexDigit (b % 16) :: toHex rest) = some (b :: rest)
      rw [fromHex]
      rw [hexVal_hexDigit _ h1, hexVal_hexDigit _ h2, ih hrest]
      have : b / 16 * 16 + b % 16 = b := by omega
      simp [this]

theorem splitOnChar_no_sep {sep : Char} {xs : JStr} (h : sep ∉ xs) :
    splitOnChar sep xs = [xs] := by
  induction xs with
  | nil => rfl
  | cons c rest ih =>
      have hc : c ≠ sep := fun hc => h (hc ▸ List.mem_cons_self _ _)
      have hrest : sep ∉ rest := fun hr => h (List.mem_cons_of_mem _ hr)
      rw [splitOnChar]
      simp only [if_neg hc, ih hrest]

theorem splitOnChar_append {sep : Char} {xs ys : JStr} (h : sep ∉ xs) :
    splitOnChar sep (xs ++ sep :: ys) = xs :: splitOnChar sep ys := by
  induction xs with
  | nil =>
      rw [List.nil_append, splitOnChar]
      simp
  | cons c rest ih =>
      have hc : c ≠ sep := fun hc => h (hc ▸ List.mem_cons_self _ _)
      have hrest : sep ∉ rest := fun hr => h (List.mem_cons_of_mem _ hr)
      rw [List.cons_append, splitOnChar]
      simp only [if_neg hc, ih hrest]

/-- Decrypting a stored "ivHex:cipherHex" value reduces to one call of the
underlying cipher: the split recovers exactly the iv and ciphertext that
the pre-save hook hex-encoded. -/
theorem getDecryptedValue_encryptValue (cm : CipherModel) (k1 k2 : String)
    (iv : List Nat) (v : JStr) (key : String) (cat : ConfigCategory)
    (desc : Option String)
    (hiv : ∀ b ∈ iv, b < 256) (hct : ∀ b ∈ cm.enc k1 iv v, b < 256) :
    getDecryptedValue cm k2
      { key := key, value := encryptValue cm k1 iv v, isEncrypted := true,
        category := cat, description := desc }
      = cm.dec k2 iv (cm.enc k1 iv v) := by
  rw [getDecryptedValue]
  simp only [encryptValue, Bool.not_true, Bool.false_eq_true, if_false]
  rw [splitOnChar_append (colon_not_mem_toHex hiv),
    splitOnChar_no_sep (colon_not_mem_toHex hct)]
  simp [fromHex_toHex hiv, fromHex_toHex hct]

/- ---------------------------------------------------------------------
   Database service (services/database.js): durable store plus the
   InMemoryStore fallback, and the ToolExecution completion handle.
--------------------------------------------------------------------- -/

/-- Configuration entry of the InMemoryStore: stored exactly as handed to
updateConfiguration; the fallback store never encrypts. -/
structure FbConfig where
  key : String
  value : JStr
  isEncrypted : Bool
deriving DecidableEq, Repr

/-- Value returned by DatabaseService.getConfiguration as a JS caller sees
it: null, a string, or - on the fallback path - a whole configuration
object. -/
inductive JsValue where
  | nullv
  | str (s : JStr)
  | obj (c : FbConfig)
deriving DecidableEq, Repr

/-- Tool definition as the state manager and database service handle it;
only the fields the verified claims touch are kept. dirty models the
underscore-dirty marker the state manager writes onto the object. -/
structure Tool where
  name : String
  category : Option String
  enabled : Bool
  dirty : Bool
  updatedAt : Nat
deriving DecidableEq, Repr

/-- Status of a ToolExecution record. -/
inductive ExecStatus where
  | pending
  | success
  | failure
deriving DecidableEq, Repr

/-- One ToolExecution record (models/ToolExecution and the InMemoryStore
execution entries share this shape); outputs are kept as an opaque string
payload. -/
structure ExecRecord where
  toolName : String
  sessionId : Option String
  status : ExecStatus
  outputs : Option JStr
  errorMessage : Option String
  executionTime : Nat
  createdAt : Nat
deriving DecidableEq, Repr

/-- Freshly logged execution: status pending, nothing else set. -/
def newExecution (toolName : String) (sessionId : Option String) (now : Nat) : ExecRecord :=
  { toolName := toolName, sessionId := sessionId, status := .pending,
    outputs := none, errorMessage := none, executionTime := 0, createdAt := now }

/-- One call of the completion closure returned by logExecution - the
status logic is identical in ToolExecutionSchema.statics.logExecution and
InMemoryStore.logToolExecution: an error argument completes to failure
with an errorMessage, otherwise to success with outputs. -/
def completeExec (rec : ExecRecord) (now : Nat) (result : Option JStr)
    (error : Option String) : ExecRecord :=
  match error with
  | some msg =>
      { rec with
        executionTime := now - rec.createdAt
        status := .failure
        errorMessage := some msg }
  | none =>
      { rec with
        executionTime := now - rec.createdAt
        status := .success
        outputs := result }

/-- Arguments of one completion call. -/
structure CompleteCall where
  now : Nat
  result : Option JStr
  error : Option String
deriving DecidableEq, Repr

/-- Record resulting from a sequence of completion calls on one handle. -/
def applyCalls (rec : ExecRecord) : List CompleteCall → ExecRecord
  | [] => rec
  | c :: cs => applyCalls (completeExec rec c.now c.result c.error) cs

/-- Status observed after each step of a sequence of completion calls,
starting with the status at creation. -/
def statusTrace (rec : ExecRecord) : List CompleteCall → List ExecStatus
  | [] => [rec.status]
  | c :: cs => rec.status :: statusTrace (completeExec rec c.now c.result c.error) cs

/-- Number of status transitions along a trace. -/
def countTransitions : List ExecStatus → Nat
  | [] => 0
  | [_] => 0
  | a :: b :: rest => (if a = b then 0 else 1) + countTransitions (b :: rest)

/-- State of the database service. useFallback is set when the initial
connection failed; durableThrows models every later Mongo call rejecting
with a connectivity error, which each DatabaseService method catches,
answering from the fallback store instead. -/
structure DbState where
  useFallback : Bool
  durableThrows : Bool
  configs : List Configuration
  fallbackConfigs : List FbConfig
  tools : List Tool
  fallbackTools : List Tool
deriving DecidableEq, Repr

/-- Whether a DatabaseService call is answered by the fallback store. -/
def DbState.onFallback (db : DbState) : Bool := db.useFallback || db.durableThrows

/-- DatabaseService.getConfiguration (database.js lines 446 to 466): the
fallback path returns the stored entry itself (the whole object, ignoring
the decrypt flag); the durable path returns the decrypted string, the raw
string, or null. The method never rejects: every internal failure is
caught and answered from the fallback store. -/
def dbGetConfiguration (cm : CipherModel) (ekey : String) (db : DbState)
    (key : String) (decrypt : Bool) : JsValue :=
  if db.onFallback then
    match db.fallbackConfigs.find? (fun c => c.key = key) with
    | some c => .obj c
    | none => .nullv
  else
    match db.configs.find? (fun c => c.key = key) with
    | none => .nullv
    | some cfg =>
      if decrypt && cfg.isEncrypted then
        match getDecryptedValue cm ekey cfg with
        | some s => .str s
        | none => .nullv
      else .str cfg.value

/-- DatabaseService.getToolByName with its catch-to-fallback. -/
def dbGetToolByName (db : DbState) (name : String) : Option Tool :=
  if db.onFallback then db.fallbackTools.find? (fun t => t.name = name)
  else db.tools.find? (fun t => t.name = name)

/-- InMemoryStore.updateConfiguration: store the value verbatim under the
key together with the encrypt flag - no encryption is applied. -/
def fbUpdateConfiguration (key : String) (value : JStr) (encrypt : Bool) : FbConfig :=
  { key := key, value := value, isEncrypted := encrypt }

/- ---------------------------------------------------------------------
   State manager (services/stateManager.js): in-memory cache in front of
   the database service. A rejected promise from the service is modelled
   as Except.error; jsError carries the message of a thrown Error.
--------------------------------------------------------------------- -/

/-- A thrown JavaScript Error. -/
inductive SmErr where
  | jsError (msg : String)
deriving DecidableEq, Repr

/-- Execution data handed to logExecution; only the fields the verified
claims read are kept. -/
structure ExecData where
  toolName : String
  sessionId : Option String
deriving DecidableEq, Repr

/-- Surface of the database service as the state manager consumes it;
Except.error models a rejected promise. -/
structure DbApi where
  getToolByName : String → Except SmErr (Option Tool)
  saveToolDefinition : Tool → Except SmErr Tool
  getConfiguration : String → Bool → Except SmErr JsValue
  updateConfiguration : String → JStr → Bool → Except SmErr Unit
  logToolExecution : ExecData → Except SmErr ExecRecord

/-- Completion handle handed back by StateManager.logExecution: either
the store handle over a freshly persisted pending record, or the dummy
no-op handle substituted when logging to the store failed. -/
inductive LogHandle where
  | store (rec : ExecRecord)
  | dummy
deriving DecidableEq, Repr

/-- Association-list lookup for the in-memory Maps of the state manager. -/
def lookupAssoc {α : Type} (l : List (String × α)) (k : String) : Option α :=
  (l.find? (fun p => p.1 = k)).map (fun p => p.2)

/-- Association-list update (Map.set). -/
def setAssoc {α : Type} (l : List (String × α)) (k : String) (v : α) :
    List (String × α) :=
  if (l.find? (fun p => p.1 = k)).isSome then
    l.map (fun p => if p.1 = k then (k, v) else p)
  else l ++ [(k, v)]

/-- Cached configuration entry of the state manager: the cache holds
whatever value the service returned (a string when set locally, possibly
a whole object when populated from the fallback path). -/
structure CachedConfig where
  value : JsValue
  isEncrypted : Bool
  dirty : Bool
deriving DecidableEq, Repr

/-- In-memory state of the StateManager that the verified claims touch. -/
structure SmState where
  tools : List (String × Tool)
  configurations : List (String × CachedConfig)
  changeSinceSync : Bool
  env : List (String × JStr)
deriving DecidableEq, Repr

/-- process.env lookup used as the last resort of getConfig. -/
def SmState.envLookup (st : SmState) (key : String) : JsValue :=
  match lookupAssoc st.env key with
  | some s => .str s
  | none => .nullv

/-- StateManager.getTool (stateManager.js lines 199 to 219): cache hit
returns directly; a miss queries the service, caching a found tool; a
service failure is caught, falling through to null. -/
def SmState.getTool (api : DbApi) (st : SmState) (name : String) :
    Except SmErr (Option Tool × SmState) :=
  match lookupAssoc st.tools name with
  | some t => .ok (some t, st)
  | none =>
    match api.getToolByName name with
    | .ok (some t) => .ok (some t, { st with tools := setAssoc st.tools name t })
    | .ok none => .ok (none, st)
    | .error _ => .ok (none, st)

/-- StateManager.saveTool (stateManager.js lines 278 to 315): a nameless
definition is rejected by a thrown Error; otherwise the copy is marked
dirty and cached, and an immediate write-through is attempted - on
success the stored copy replaces the cache entry with the dirty flag
cleared, on failure the dirty copy stays cached. -/
def SmState.saveTool (api : DbApi) (st : SmState) (td : Tool) (now : Nat) :
    Except SmErr (Tool × SmState) :=
  if td.name = "" then .error (.jsError "Tool definition must have a name")
  else
    let td1 := { td with dirty := true, updatedAt := now }
    let st1 := { st with
      tools := setAssoc st.tools td1.name td1
      changeSinceSync := true }
    match api.saveToolDefinition td1 with
    | .ok saved =>
        let saved1 := { saved with dirty := false }
        .ok (saved1, { st1 with tools := setAssoc st1.tools saved1.name saved1 })
    | .error _ => .ok (td1, st1)

/-- StateManager.getConfig (stateManager.js lines 347 to 390): a cache hit
on an encrypted entry is re-read through the service for decryption, with
the cached (still encrypted) value returned if that call rejects; a cache
miss queries the service, caches a non-null result, and otherwise falls
back to process.env, then null. -/
def SmState.getConfig (api : DbApi) (st : SmState) (key : String) (decrypt : Bool) :
    Except SmErr (JsValue × SmState) :=
  match lookupAssoc st.configurations key with
  | some cfg =>
      if decrypt && cfg.isEncrypted then
        match api.getConfiguration key decrypt with
        | .ok v => .ok (v, st)
        | .error _ => .ok (cfg.value, st)
      else .ok (cfg.value, st)
  | none =>
      match api.getConfiguration key decrypt with
      | .ok (.nullv) => .ok (st.envLookup key, st)
      | .ok v =>
          .ok (v, { st with
            configurations :=
              setAssoc st.configurations key
                { value := v, isEncrypted := decrypt, dirty := false } })
      | .error _ => .ok (st.envLookup key, st)

/-- StateManager.setConfig (stateManager.js lines 399 to 426): cache the
value as dirty, attempt an immediate write-through, clear the dirty flag
and answer true on success, answer false on failure. -/
def SmState.setConfig (api : DbApi) (st : SmState) (key : String) (value : JStr)
    (encrypt : Bool) : Except SmErr (Bool × SmState) :=
  let st1 := { st with
    configurations :=
      setAssoc st.configurations key
        { value := .str value, isEncrypted := encrypt, dirty := true }
    changeSinceSync := true }
  match api.updateConfiguration key value encrypt with
  | .ok _ =>
      .ok (true, { st1 with
        configurations :=
          setAssoc st1.configurations key
            { value := .str value, isEncrypted := encrypt, dirty := false } })
  | .error _ => .ok (false, st1)

/-- StateManager.logExecution (stateManager.js lines 433 to 455): assign a
session id when absent and delegate; a rejected delegation is caught and
replaced by the dummy completion handle. -/
def SmState.logExecution (api : DbApi) (st : SmState) (d : ExecData)
    (generatedId : String) : Except SmErr (LogHandle × SmState) :=
  let st1 := { st with changeSinceSync := true }
  let d1 :=
    match d.sessionId with
    | some _ => d
    | none => { d with sessionId := some generatedId }
  match api.logToolExecution d1 with
  | .ok rec => .ok (.store rec, st1)
  | .error _ => .ok (.dummy, st1)

/-- Database service as an api over a fixed store state: no method ever
rejects (each catches internal errors and answers from the fallback
store), mirroring services/database.js. Store mutation is not threaded:
no verified claim depends on it. -/
def DbState.api (cm : CipherModel) (ekey : String) (db : DbState) (now : Nat) : DbApi :=
  { getToolByName := fun n => .ok (dbGetToolByName db n)
    saveToolDefinition := fun t => .ok t
    getConfiguration := fun k d => .ok (dbGetConfiguration cm ekey db k d)
    updateConfiguration := fun _ _ _ => .ok ()
    logToolExecution := fun d => .ok (newExecution d.toolName d.sessionId now) }

/-- Adversarial api in which every call to the durable store rejects with
a connectivity error - the stress case of the fallback-transparency
claim. -/
def allThrowApi (msg : String) : DbApi :=
  { getToolByName := fun _ => .error (.jsError msg)
    saveToolDefinition := fun _ => .error (.jsError msg)
    getConfiguration := fun _ _ => .error (.jsError msg)
    updateConfiguration := fun _ _ _ => .error (.jsError msg)
    logToolExecution := fun _ => .error (.jsError msg) }

/- ---------------------------------------------------------------------
   Dispatch and tool-execution orchestrator (server part_010): provider
   handlers, executeTools / executeOpenAITools, and the /mcp/:provider
   route. The provider SDK calls and the six tool implementations are
   external collaborators, modelled as function parameters; tool inputs
   and outputs are opaque payloads (argument projection such as
   input.query is folded into the collaborator function).
--------------------------------------------------------------------- -/

/-- Opaque tool input payload. -/
abbrev ToolInput := String

/-- Opaque tool output payload (JSON stringification folded in). -/
abbrev Output := String

/-- One entry of an Anthropic reply content array. -/
structure ContentItem where
  type : String
  name : String
  input : ToolInput
deriving DecidableEq, Repr

/-- One OpenAI tool call, with arguments already JSON-decoded. -/
structure OpenAIToolCall where
  id : String
  name : String
  arguments : ToolInput
deriving DecidableEq, Repr

/-- Output slot of one executed tool: a successful payload, or the inline
error object pushed for an unknown tool name. -/
inductive ToolOutput where
  | payload (o : Output)
  | errorPayload (msg : String)
deriving DecidableEq, Repr

/-- Result entry pushed by executeTools. -/
structure ToolResult where
  tool_name : String
  input : ToolInput
  output : ToolOutput
deriving DecidableEq, Repr

/-- Result entry pushed by executeOpenAITools. -/
structure OpenAIToolResult where
  id : String
  output : ToolOutput
deriving DecidableEq, Repr

/-- The six internal tool implementations (tools/web-search and
tools/image-generation): external collaborators that return a payload or
throw. -/
structure ToolImpls where
  searchWeb : ToolInput → Except SmErr Output
  getWebpageContent : ToolInput → Except SmErr Output
  fetchMultipleUrls : ToolInput → Except SmErr Output
  generateImage : ToolInput → Except SmErr Output
  editImage : ToolInput → Except SmErr Output
  createImageVariation : ToolInput → Except SmErr Output

/-- The switch statement shared by both execute functions: dispatch on the
exact tool name (a sequential comparison against each case label); an
unknown name produces the inline error payload instead of failing. -/
def execOne (impls : ToolImpls) (name : String) (input : ToolInput) :
    Except SmErr ToolOutput :=
  if name = "web_search" then (impls.searchWeb input).map .payload
  else if name = "web_content" then (impls.getWebpageContent input).map .payload
  else if name = "web_batch" then (impls.fetchMultipleUrls input).map .payload
  else if name = "generate_image" then (impls.generateImage input).map .payload
  else if name = "edit_image" then (impls.editImage input).map .payload
  else if name = "create_image_variation" then
    (impls.createImageVariation input).map .payload
  else .ok (.errorPayload ("Unknown tool: " ++ name))

/-- Loop body of executeTools: results accumulate until a thrown
implementation error escapes the loop. -/
def runToolLoop (impls : ToolImpls) : List ContentItem → Except SmErr (List ToolResult)
  | [] => .ok []
  | item :: rest => do
      let out ← execOne impls item.name item.input
      let others ← runToolLoop impls rest
      pure ({ tool_name := item.name, input := item.input, output := out } :: others)

/-- Wrapping applied by the single catch around the whole loop. -/
def wrapToolFailure : SmErr → SmErr
  | .jsError m => .jsError ("Tool execution failed: " ++ m)

/-- executeTools (part_010 lines 593 to 684): filter the tool_use entries
and run them in order inside one try block; any implementation throw is
rethrown wrapped, aborting the whole batch. -/
def executeTools (impls : ToolImpls) (content : List ContentItem) :
    Except SmErr (List ToolResult) :=
  match runToolLoop impls (content.filter (fun i => i.type = "tool_use")) with
  | .ok rs => .ok rs
  | .error e => .error (wrapToolFailure e)

/-- Loop body of executeOpenAITools: same switch, results tagged by call
id. -/
def runOpenAIToolLoop (impls : ToolImpls) :
    List OpenAIToolCall → Except SmErr (List OpenAIToolResult)
  | [] => .ok []
  | call :: rest => do
      let out ← execOne impls call.name call.arguments
      let others ← runOpenAIToolLoop impls rest
      pure ({ id := call.id, output := out } :: others)

/-- executeOpenAITools (part_010 lines 687 to 770): same single-try
structure as executeTools. -/
def executeOpenAITools (impls : ToolImpls) (calls : List OpenAIToolCall) :
    Except SmErr (List OpenAIToolResult) :=
  match runOpenAIToolLoop impls calls with
  | .ok rs => .ok rs
  | .error e => .error (wrapToolFailure e)

/-- Conversation value carried in the messages field: the raw inbound
list, or a reassembled follow-up conversation appending the assistant
tool-use message and the tool results to the previous messages. -/
inductive Messages where
  | inbound (raw : String)
  | followup (prev : Option Messages) (assistantContent : List ContentItem)
      (toolOutputs : List ToolResult)
  | openaiFollowup (prev : Option Messages) (calls : List OpenAIToolCall)
      (toolOutputs : List OpenAIToolResult)

/-- Body of a POST /mcp/:provider request (fields the route reads). -/
structure McpBody where
  prompt : Option String
  messages : Option Messages
  model : Option String

/-- Anthropic reply shape as the route inspects it. -/
structure AnthResp where
  rtype : String
  content : List ContentItem
deriving DecidableEq, Repr

/-- First choice message of an OpenAI reply: tool_calls is none when the
field is absent (note an empty array present in the reply still triggers
the tool branch, as an empty array is truthy in JS). -/
structure OpenAIMessage where
  tool_calls : Option (List OpenAIToolCall)
deriving DecidableEq, Repr

/-- OpenAI reply shape as the route inspects it. -/
structure OpenAIResp where
  choices : List OpenAIMessage
deriving DecidableEq, Repr

/-- Provider clients: none models a client left uninitialized for lack of
an api key; the completion call itself is an external collaborator. -/
structure Providers where
  anthropic : Option (McpBody → Except SmErr AnthResp)
  openai : Option (McpBody → Except SmErr OpenAIResp)

/-- handleAnthropicRequest (part_010 lines 510 to 543): requires the
client, then dispatches the messages or the prompt; with neither present
it throws. -/
def handleAnthropicRequest (clients : Providers) (body : McpBody) :
    Except SmErr AnthResp :=
  match clients.anthropic with
  | none => .error (.jsError "Anthropic client is not initialized")
  | some complete =>
    match body.messages with
    | some _ => complete body
    | none =>
      match body.prompt with
      | some _ => complete body
      | none => .error (.jsError "Either prompt or messages must be provided")

/-- handleOpenAIRequest (part_010 lines 545 to 590): same validation
structure as the Anthropic handler. -/
def handleOpenAIRequest (clients : Providers) (body : McpBody) :
    Except SmErr OpenAIResp :=
  match clients.openai with
  | none => .error (.jsError "OpenAI client is not initialized")
  | some complete =>
    match body.messages with
    | some _ => complete body
    | none =>
      match body.prompt with
      | some _ => complete body
      | none => .error (.jsError "Either prompt or messages must be provided")

/-- Body of an HTTP response of the /mcp/:provider route. -/
inductive RespBody where
  | errBody (msg : String)
  | anth (r : AnthResp)
  | oai (r : OpenAIResp)
deriving DecidableEq, Repr

/-- Status code plus body. -/
structure HttpResponse where
  status : Nat
  body : RespBody
deriving DecidableEq, Repr

/-- The /mcp/:provider route (part_010 lines 94 to 229): dispatch to the
provider handler, run the tool branch when the reply signals tool use,
re-dispatch with the reassembled conversation, and convert any thrown
error into a 500 response. Telemetry calls (logExecution and the
completion handle) never reject and do not shape the response; they are
omitted here. -/
def mcpHandler (clients : Providers) (impls : ToolImpls) (provider : String)
    (body : McpBody) : HttpResponse :=
  if provider = "anthropic" then
    match handleAnthropicRequest clients body with
    | .error (.jsError m) => { status := 500, body := .errBody m }
    | .ok resp =>
      if resp.rtype = "tool_use" then
        match executeTools impls resp.content with
        | .error (.jsError m) => { status := 500, body := .errBody m }
        | .ok outs =>
          match handleAnthropicRequest clients
              { prompt := none
                messages := some (.followup body.messages resp.content outs)
                model := body.model } with
          | .error (.jsError m) => { status := 500, body := .errBody m }
          | .ok fresp => { status := 200, body := .anth fresp }
      else { status := 200, body := .anth resp }
  else if provider = "openai" then
    match handleOpenAIRequest clients body with
    | .error (.jsError m) => { status := 500, body := .errBody m }
    | .ok resp =>
      match resp.choices.head? with
      | some msg =>
        match msg.tool_calls with
        | some calls =>
          match executeOpenAITools impls calls with
          | .error (.jsError m) => { status := 500, body := .errBody m }
          | .ok outs =>
            match handleOpenAIRequest clients
                { prompt := none
                  messages := some (.openaiFollowup body.messages calls outs)
                  model := body.model } with
            | .error (.jsError m) => { status := 500, body := .errBody m }
            | .ok fresp => { status := 200, body := .oai fresp }
        | none => { status := 200, body := .oai resp }
      | none => { status := 200, body := .oai resp }
  else { status := 400, body := .errBody ("Unsupported provider: " ++ provider) }

/- ---------------------------------------------------------------------
   Tool catalog renderer (tools-available, part_019): store-level filters,
   search and provider filters, pagination, response metadata.
--------------------------------------------------------------------- -/

/-- Tool document as the catalog handler reads it from the store; only
the fields the filters and metadata touch are kept. -/
structure ToolDoc where
  name : JStr
  description : JStr
  tags : List JStr
  category : Option JStr
  version : Option JStr
  provider : Option JStr
  metaProvider : Option JStr
  enabled : Bool
deriving DecidableEq, Repr

/-- JavaScript toLowerCase. -/
def jsToLower (s : JStr) : JStr := s.map Char.toLower

/-- JavaScript String.includes: substring test. -/
def containsSub (pat : JStr) : JStr → Bool
  | [] => decide (pat = [])
  | c :: rest => pat.isPrefixOf (c :: rest) || containsSub pat rest

/-- Query options of the /tools/available handler. -/
structure ListOptions where
  category : Option JStr
  enabledOnly : Bool
  search : Option JStr
  provider : Option JStr
  limit : Option Nat
  offset : Nat
deriving DecidableEq, Repr

/-- Store-level filters passed to databaseService.getAllTools: exact
category match and enabled-only. -/
def applyStoreFilters (opts : ListOptions) (ts : List ToolDoc) : List ToolDoc :=
  let t1 :=
    match opts.category with
    | some c => ts.filter (fun t => t.category = some c)
    | none => ts
  if opts.enabledOnly then t1.filter (fun t => t.enabled) else t1

/-- Search filter (part_019 lines 36 to 43): case-insensitive substring
match against name, description, or any tag. -/
def matchesSearch (search : JStr) (t : ToolDoc) : Bool :=
  let term := jsToLower search
  containsSub term (jsToLower t.name)
  || containsSub term (jsToLower t.description)
  || t.tags.any (fun tag => containsSub term (jsToLower tag))

/-- Provider filter (part_019 lines 46 to 58): the provider field wins,
then metadata.provider, else no match. -/
def matchesProvider (p : JStr) (t : ToolDoc) : Bool :=
  match t.provider with
  | some tp => jsToLower tp = jsToLower p
  | none =>
    match t.metaProvider with
    | some mp => jsToLower mp = jsToLower p
    | none => false

/-- All filters, in handler order, before any pagination. -/
def filteredCatalog (opts : ListOptions) (stored : List ToolDoc) : List ToolDoc :=
  let a := applyStoreFilters opts stored
  let b :=
    match opts.search with
    | some s => a.filter (matchesSearch s)
    | none => a
  match opts.provider with
  | some p => b.filter (matchesProvider p)
  | none => b

/-- Formatted per-tool entry of the response (fields not inspected by any
claim are dropped). -/
structure FormattedTool where
  name : JStr
  category : JStr
  enabled : Bool
deriving DecidableEq, Repr

/-- Per-tool formatting map of the handler. -/
def formatTool (t : ToolDoc) : FormattedTool :=
  { name := t.name
    category := t.category.getD "other".toList
    enabled := t.enabled }

/-- Response metadata block. -/
structure CatalogMetadata where
  categories : List JStr
  providers : List JStr
  totalCount : Nat
  offset : Nat
  limit : Nat
deriving DecidableEq, Repr

/-- Catalog response as rendered for the json format. -/
structure CatalogResponse where
  success : Bool
  count : Nat
  metadata : CatalogMetadata
  tools : List FormattedTool
deriving DecidableEq, Repr

/-- The /tools/available handler (part_019 lines 12 to 195): filter, then
paginate with slice(offset, offset + limit) when a limit is given, and
report totalCount from the unpaginated filtered list. -/
def toolsAvailable (stored : List ToolDoc) (opts : ListOptions) : CatalogResponse :=
  let allTools := filteredCatalog opts stored
  let paginatedTools :=
    match opts.limit with
    | some l => (allTools.drop opts.offset).take l
    | none => allTools
  let formattedTools := paginatedTools.map formatTool
  { success := true
    count := formattedTools.length
    metadata :=
      { categories := (allTools.map (fun t => t.category.getD "other".toList)).eraseDups
        providers :=
          (allTools.map (fun t =>
            match t.provider with
            | some p => p
            | none =>
              match t.metaProvider with
              | some mp => mp
              | none => "internal".toList)).eraseDups
        totalCount := allTools.length
        offset := opts.offset
        limit := opts.limit.getD allTools.length }
    tools := formattedTools }

/- ---------------------------------------------------------------------
   Persistence service (services/persistence.js): backup creation.
--------------------------------------------------------------------- -/

/-- Configuration entry as written into a backup file: key, category,
description and the encryption flag only - values are excluded. -/
structure BackupConfigEntry where
  key : String
  category : ConfigCategory
  description : Option String
  isEncrypted : Bool
deriving DecidableEq, Repr

/-- Projection applied to each configuration by createBackup. -/
def configBackupEntry (c : Configuration) : BackupConfigEntry :=
  { key := c.key
    category := c.category
    description := c.description
    isEncrypted := c.isEncrypted }

/-- Configuration.getAllByCategory as createBackup uses it. The source
additionally sorts by key; the sort is a function of the key sequence
alone, which the value-only-difference relation below preserves, so it is
omitted. -/
def getConfigurationsByCategory (db : List Configuration) (cat : ConfigCategory) :
    List Configuration :=
  db.filter (fun c => c.category = cat)

/-- Configurations section of the backup object built by createBackup
(persistence.js lines 163 to 178): server entries then api_key entries,
each reduced to the four non-secret fields. -/
def createBackupConfigurations (db : List Configuration) : List BackupConfigEntry :=
  (getConfigurationsByCategory db .server).map configBackupEntry
  ++ (getConfigurationsByCategory db .api_key).map configBackupEntry

/-- Two configuration collections that agree on everything except
possibly the value fields. -/
def ValueOnlyDiff (db1 db2 : List Configuration) : Prop :=
  List.Forall₂
    (fun c1 c2 => c1.key = c2.key ∧ c1.isEncrypted = c2.isEncrypted
      ∧ c1.category = c2.category ∧ c1.description = c2.description)
    db1 db2

/- ---------------------------------------------------------------------
   Configuration statics and the pre-save hook (part_017).
--------------------------------------------------------------------- -/

/-- ConfigurationSchema pre-save hook (part_017 lines 89 to 134): the
SYSTEM_ENCRYPTION_KEY row in category server gets its isEncrypted flag
forced off; otherwise a modified value is encrypted when the flag asks
for it. Metadata timestamps are dropped. -/
def preSaveConfiguration (cm : CipherModel) (ekey : String) (iv : List Nat)
    (doc : Configuration) (valueModified : Bool) : Configuration :=
  if doc.key = "SYSTEM_ENCRYPTION_KEY" ∧ doc.category = ConfigCategory.server then
    { doc with isEncrypted := false }
  else if valueModified && doc.isEncrypted then
    { doc with value := encryptValue cm ekey iv doc.value }
  else doc

/-- Fresh Configuration document as Model.create builds it from the
updateConfig arguments: the category takes the schema default server. -/
def newConfiguration (key : String) (value : JStr) (isEncrypted : Bool) : Configuration :=
  { key := key
    value := value
    isEncrypted := isEncrypted
    category := .server
    description := none }

/-- ConfigurationSchema.statics.updateConfig (part_017 lines 237 to 247):
upsert by key; both branches run the pre-save hook on save. The document
as persisted is returned. -/
def updateConfig (cm : CipherModel) (ekey : String) (iv : List Nat)
    (db : List Configuration) (key : String) (value : JStr) (isEncrypted : Bool) :
    Configuration :=
  match db.find? (fun c => c.key = key) with
  | some cfg =>
      preSaveConfiguration cm ekey iv
        { cfg with value := value, isEncrypted := isEncrypted } true
  | none =>
      preSaveConfiguration cm ekey iv (newConfiguration key value isEncrypted) true

/- ---------------------------------------------------------------------
   Concrete cipher used by witnesses: a toy key-tagging scheme satisfying
   the contract of the external primitive (round-trip inverse, rejection
   under a mismatched key).
--------------------------------------------------------------------- -/

/-- Numeric code of a key string. -/
def keyCode (k : String) : Nat :=
  (k.toList.map Char.toNat).foldl (fun a c => a + c) 0

/-- Toy cipher for witnesses: prepend a key tag byte; decryption checks
the tag and strips it, rejecting a mismatched tag. -/
def toyCipher : CipherModel :=
  { enc := fun k _ m => (keyCode k % 256) :: m.map (fun c => c.toNat % 256)
    dec := fun k _ c =>
      match c with
      | [] => none
      | t :: rest =>
        if t = keyCode k % 256 then some (rest.map Char.ofNat) else none }

/- ---------------------------------------------------------------------
   Claim C2: encryption round-trip and wrong-key rejection.
--------------------------------------------------------------------- -/

/-- C2: for every plaintext v and key k, decrypting the stored
"ivHex:cipherHex" produced by encrypting v under k yields v; and for
distinct keys, decrypting a value encrypted under k1 with k2 never
yields v. The aes-256-cbc / sha-256 primitive is external library code;
it enters as the CipherModel parameter with its contract (round-trip
inverse, rejection under a mismatched key, as spec section 4.1 states
it) taken as hypotheses, so the theorem verifies that the repository
wrapper - hex encoding, the colon-joined storage format, the parse and
the error trapping - preserves exactly the primitive's guarantees. -/
theorem encrypt_roundtrip_wrong_key_rejected
    (cm : CipherModel) (k1 k2 : String) (iv : List Nat) (v : JStr)
    (key : String) (cat : ConfigCategory) (desc : Option String)
    (hiv : ∀ b ∈ iv, b < 256)
    (hct : ∀ b ∈ cm.enc k1 iv v, b < 256)
    (hrt : cm.dec k1 iv (cm.enc k1 iv v) = some v)
    (hne : k1 ≠ k2)
    (hwk : cm.dec k2 iv (cm.enc k1 iv v) ≠ some v) :
    getDecryptedValue cm k1
      { key := key, value := encryptValue cm k1 iv v, isEncrypted := true,
        category := cat, description := desc } = some v
    ∧ getDecryptedValue cm k2
      { key := key, value := encryptValue cm k1 iv v, isEncrypted := true,
        category := cat, description := desc } ≠ some v := by
  refine ⟨?_, ?_⟩
  · rw [getDecryptedValue_encryptValue cm k1 k1 iv v key cat desc hiv hct]
    exact hrt
  · rw [getDecryptedValue_encryptValue cm k1 k2 iv v key cat desc hiv hct]
    exact hwk

/-- C2 witness: the parametric theorem instantiated with the concrete
toy cipher at keys a and b and plaintext hi. -/
theorem encrypt_roundtrip_wrong_key_rejected_witness :
    getDecryptedValue toyCipher "a"
      { key := "K", value := encryptValue toyCipher "a" [1, 2] "hi".toList,
        isEncrypted := true, category := .server, description := none }
      = some "hi".toList
    ∧ getDecryptedValue toyCipher "b"
      { key := "K", value := encryptValue toyCipher "a" [1, 2] "hi".toList,
        isEncrypted := true, category := .server, description := none }
      ≠ some "hi".toList :=
  encrypt_roundtrip_wrong_key_rejected toyCipher "a" "b" [1, 2] "hi".toList
    "K" .server none (by decide) (by decide) (by decide) (by decide) (by decide)

/- ---------------------------------------------------------------------
   Claim C10: the persisted SYSTEM_ENCRYPTION_KEY row is never encrypted.
--------------------------------------------------------------------- -/

/-- C10: the pre-save hook forces isEncrypted off for the
SYSTEM_ENCRYPTION_KEY row in category server, so upserting that key
through updateConfig persists an unencrypted row whatever flag the
caller supplied; the hypothesis records that every row already stored
under that key carries the schema-default category server, which is how
both writers of the row (getEncryptionKey and updateConfig creation)
build it. -/
theorem system_encryption_key_never_encrypted
    (cm : CipherModel) (ekey : String) (iv : List Nat) (db : List Configuration)
    (v : JStr) (e : Bool)
    (hcat : ∀ cfg ∈ db, cfg.key = "SYSTEM_ENCRYPTION_KEY" →
      cfg.category = ConfigCategory.server) :
    (updateConfig cm ekey iv db "SYSTEM_ENCRYPTION_KEY" v e).isEncrypted = false
    ∧ (updateConfig cm ekey iv db "SYSTEM_ENCRYPTION_KEY" v e).key
        = "SYSTEM_ENCRYPTION_KEY"
    ∧ ∀ doc : Configuration, doc.key = "SYSTEM_ENCRYPTION_KEY" →
        doc.category = ConfigCategory.server →
        ∀ vm, (preSaveConfiguration cm ekey iv doc vm).isEncrypted = false := by
  refine ⟨?_, ?_, ?_⟩
  · rw [updateConfig]
    cases hfind : db.find? (fun c => c.key = "SYSTEM_ENCRYPTION_KEY") with
    | none => simp [preSaveConfiguration, newConfiguration]
    | some cfg =>
        have hmem := List.mem_of_find?_eq_some hfind
        have hkey : cfg.key = "SYSTEM_ENCRYPTION_KEY" := by
          have := List.find?_some hfind
          simpa using this
        have hc := hcat cfg hmem hkey
        simp [preSaveConfiguration, hkey, hc]
  · rw [updateConfig]
    cases hfind : db.find? (fun c => c.key = "SYSTEM_ENCRYPTION_KEY") with
    | none => simp [preSaveConfiguration, newConfiguration]
    | some cfg =>
        have hmem := List.mem_of_find?_eq_some hfind
        have hkey : cfg.key = "SYSTEM_ENCRYPTION_KEY" := by
          have := List.find?_some hfind
          simpa using this
        have hc := hcat cfg hmem hkey
        simp [preSaveConfiguration, hkey, hc]
  · intro doc hkey hc vm
    simp [preSaveConfiguration, hkey, hc]

/-- C10 witness: upserting the key row with the encrypt flag raised into
a store that already holds a server-category row for it still persists
isEncrypted false. -/
theorem system_encryption_key_never_encrypted_witness :
    (updateConfig toyCipher "a" [1]
        [{ key := "SYSTEM_ENCRYPTION_KEY", value := "oldkey".toList,
           isEncrypted := false, category := .server, description := none }]
        "SYSTEM_ENCRYPTION_KEY" "newkey".toList true).isEncrypted = false := by
  have h := system_encryption_key_never_encrypted toyCipher "a" [1]
    [{ key := "SYSTEM_ENCRYPTION_KEY", value := "oldkey".toList,
       isEncrypted := false, category := .server, description := none }]
    "newkey".toList true
    (by intro cfg hmem hkey
        simp only [List.mem_singleton] at hmem
        rw [hmem])
  exact h.1

/- ---------------------------------------------------------------------
   Claim C9: backups exclude configuration values.
--------------------------------------------------------------------- -/

theorem backupByCategory_valueOnlyDiff {db1 db2 : List Configuration}
    (h : ValueOnlyDiff db1 db2) (cat : ConfigCategory) :
    (getConfigurationsByCategory db1 cat).map configBackupEntry
      = (getConfigurationsByCategory db2 cat).map configBackupEntry := by
  induction h with
  | nil => rfl
  | @cons c1 c2 l1 l2 hrel hrest ih =>
      obtain ⟨hkey, henc, hcat, hdesc⟩ := hrel
      have hentry : configBackupEntry c1 = configBackupEntry c2 := by
        simp [configBackupEntry, hkey, henc, hcat, hdesc]
      simp only [getConfigurationsByCategory] at ih ⊢
      rw [List.filter_cons, List.filter_cons, hcat]
      by_cases hc : c2.category = cat
      · simp [hc, hentry, ih]
      · simp [hc, ih]

/-- C9: the configurations section of a backup carries only key,
category, description and the encryption flag; two stores that differ
only in configuration values produce identical backup sections. -/
theorem backup_excludes_configuration_values
    (db1 db2 : List Configuration) (h : ValueOnlyDiff db1 db2) :
    createBackupConfigurations db1 = createBackupConfigurations db2 := by
  rw [createBackupConfigurations, createBackupConfigurations,
    backupByCategory_valueOnlyDiff h ConfigCategory.server,
    backupByCategory_valueOnlyDiff h ConfigCategory.api_key]

/-- C9 witness: two one-entry stores with distinct secret values yield
the same backup section. -/
theorem backup_excludes_configuration_values_witness :
    createBackupConfigurations
      [{ key := "OPENAI_API_KEY", value := "secret-1".toList, isEncrypted := true,
         category := .api_key, description := none }]
    = createBackupConfigurations
      [{ key := "OPENAI_API_KEY", value := "secret-2".toList, isEncrypted := true,
         category := .api_key, description := none }] :=
  backup_excludes_configuration_values _ _
    (List.Forall₂.cons ⟨rfl, rfl, rfl, rfl⟩ List.Forall₂.nil)

/- ---------------------------------------------------------------------
   Claim C7: catalog pagination bound and totalCount stability.
--------------------------------------------------------------------- -/

/-- C7: for every filter combination, limit L and offset O, the tools
array of the catalog response has length at most L, and
metadata.totalCount equals the filtered pre-pagination count, hence is
the same whatever limit and offset are supplied. -/
theorem catalog_pagination_bound
    (stored : List ToolDoc) (cat search prov : Option JStr) (en : Bool)
    (L O L2 O2 : Nat) :
    (toolsAvailable stored
        { category := cat, enabledOnly := en, search := search,
          provider := prov, limit := some L, offset := O }).tools.length ≤ L
    ∧ (toolsAvailable stored
        { category := cat, enabledOnly := en, search := search,
          provider := prov, limit := some L, offset := O }).metadata.totalCount
      = (filteredCatalog
          { category := cat, enabledOnly := en, search := search,
            provider := prov, limit := some L, offset := O } stored).length
    ∧ (toolsAvailable stored
        { category := cat, enabledOnly := en, search := search,
          provider := prov, limit := some L, offset := O }).metadata.totalCount
      = (toolsAvailable stored
          { category := cat, enabledOnly := en, search := search,
            provider := prov, limit := some L2, offset := O2 }).metadata.totalCount := by
  refine ⟨?_, rfl, rfl⟩
  simp only [toolsAvailable, List.length_map, List.length_take]
  exact min_le_left _ _

/- ---------------------------------------------------------------------
   Claim C6: execution status transitions.
--------------------------------------------------------------------- -/

/-- C6 counterexample: the completion handle is not guarded against being
called twice - completing with a success and then with an error moves the
status pending, success, failure: two transitions, landing on both
terminal statuses, against the claimed at-most-one transition to exactly
one of them. -/
theorem execution_double_complete_counterexample :
    statusTrace (newExecution "web_search" none 0)
        [{ now := 5, result := some "out".toList, error := none },
         { now := 9, result := none, error := some "boom" }]
      = [.pending, .success, .failure]
    ∧ countTransitions [ExecStatus.pending, .success, .failure] = 2 := by
  decide

theorem completeExec_status_ne_pending (rec : ExecRecord) (now : Nat)
    (r : Option JStr) (e : Option String) :
    (completeExec rec now r e).status ≠ .pending := by
  cases e <;> simp [completeExec]

theorem statusTrace_ne_pending (cs : List CompleteCall) (rec : ExecRecord)
    (h : rec.status ≠ .pending) : ∀ s ∈ statusTrace rec cs, s ≠ .pending := by
  induction cs generalizing rec with
  | nil =>
      intro s hs
      simp only [statusTrace, List.mem_singleton] at hs
      rw [hs]; exact h
  | cons c cs ih =>
      intro s hs
      simp only [statusTrace, List.mem_cons] at hs
      rcases hs with hs | hs
      · rw [hs]; exact h
      · exact ih (completeExec rec c.now c.result c.error)
          (completeExec_status_ne_pending _ _ _ _) s hs

/-- C6 amended: a record starts pending; every status reached after the
first completion call is success or failure and never pending again, for
every further sequence of calls; a single completion call makes exactly
one transition, to failure exactly when an error argument was passed -
but a repeated call can overwrite one terminal status with the other,
so the at-most-one-transition clause holds only for single-completion
call sequences. -/
theorem execution_status_monotonicity
    (t : String) (sid : Option String) (n0 : Nat)
    (c : CompleteCall) (cs : List CompleteCall) :
    (newExecution t sid n0).status = .pending
    ∧ (∀ s ∈ statusTrace
          (completeExec (newExecution t sid n0) c.now c.result c.error) cs,
        s ≠ .pending)
    ∧ countTransitions (statusTrace (newExecution t sid n0) [c]) = 1
    ∧ (completeExec (newExecution t sid n0) c.now c.result c.error).status
        = (if c.error.isSome then .failure else .success) := by
  refine ⟨rfl, ?_, ?_, ?_⟩
  · exact statusTrace_ne_pending cs _ (completeExec_status_ne_pending _ _ _ _)
  · cases he : c.error <;>
      simp [statusTrace, countTransitions, completeExec, newExecution, he]
  · cases he : c.error <;> simp [completeExec, he]

/-- C6 witness: the amended theorem applied to one concrete record and
one concrete completion call. -/
theorem execution_status_monotonicity_witness :
    (newExecution "web_search" none 0).status = .pending
    ∧ countTransitions (statusTrace (newExecution "web_search" none 0)
        [{ now := 5, result := none, error := some "boom" }]) = 1 := by
  have h := execution_status_monotonicity "web_search" none 0
    { now := 5, result := none, error := some "boom" } []
  exact ⟨h.1, h.2.2.1⟩

/- ---------------------------------------------------------------------
   Claim C3: state-manager fallback transparency.
--------------------------------------------------------------------- -/

/-- A call that returned a value instead of propagating an exception. -/
def returnsResult {α : Type} : Except SmErr α → Prop
  | .ok _ => True
  | .error _ => False

/-- Empty state-manager state used by concrete instances. -/
def emptySmState : SmState :=
  { tools := [], configurations := [], changeSinceSync := false, env := [] }

/-- C3 counterexample: saveTool propagates a thrown Error for a nameless
tool definition, so not every input returns a result - the validation
throw escapes the method whatever the store does. -/
theorem saveTool_nameless_throws :
    SmState.saveTool (allThrowApi "connection lost") emptySmState
        { name := "", category := none, enabled := true, dirty := false,
          updatedAt := 0 } 0
      = .error (.jsError "Tool definition must have a name") := rfl

/-- C3 amended: for every input whose tool definition carries a name,
each public state-manager operation returns a result rather than
propagating an exception, even when every call to the durable store
throws a connectivity error. -/
theorem stateManager_fallback_transparency
    (msg : String) (st : SmState) (n key gid : String) (d : Bool)
    (td : Tool) (now : Nat) (v : JStr) (e : Bool) (dat : ExecData)
    (hname : td.name ≠ "") :
    returnsResult (SmState.getTool (allThrowApi msg) st n)
    ∧ returnsResult (SmState.saveTool (allThrowApi msg) st td now)
    ∧ returnsResult (SmState.getConfig (allThrowApi msg) st key d)
    ∧ returnsResult (SmState.setConfig (allThrowApi msg) st key v e)
    ∧ returnsResult (SmState.logExecution (allThrowApi msg) st dat gid) := by
  refine ⟨?_, ?_, ?_, ?_, ?_⟩
  · cases h : lookupAssoc st.tools n <;>
      simp [returnsResult, SmState.getTool, allThrowApi, h]
  · simp [returnsResult, SmState.saveTool, allThrowApi, hname]
  · cases h : lookupAssoc st.configurations key with
    | some cfg =>
        by_cases hd : d && cfg.isEncrypted
        · simp [returnsResult, SmState.getConfig, allThrowApi, h, hd]
        · simp [returnsResult, SmState.getConfig, allThrowApi, h, hd]
    | none => simp [returnsResult, SmState.getConfig, allThrowApi, h]
  · simp [returnsResult, SmState.setConfig, allThrowApi]
  · cases h : dat.sessionId <;>
      simp [returnsResult, SmState.logExecution, allThrowApi, h]

/-- C3 witness: the amended theorem at concrete inputs against the
all-throwing store. -/
theorem stateManager_fallback_transparency_witness :
    returnsResult (SmState.getTool (allThrowApi "down") emptySmState "web_search")
    ∧ returnsResult (SmState.saveTool (allThrowApi "down") emptySmState
        { name := "tool1", category := none, enabled := true, dirty := false,
          updatedAt := 0 } 0)
    ∧ returnsResult (SmState.getConfig (allThrowApi "down") emptySmState
        "OPENAI_API_KEY" true)
    ∧ returnsResult (SmState.setConfig (allThrowApi "down") emptySmState
        "OPENAI_API_KEY" "sk-1".toList true)
    ∧ returnsResult (SmState.logExecution (allThrowApi "down") emptySmState
        { toolName := "web_search", sessionId := none } "session_1") :=
  stateManager_fallback_transparency "down" emptySmState "web_search"
    "OPENAI_API_KEY" "session_1" true
    { name := "tool1", category := none, enabled := true, dirty := false,
      updatedAt := 0 } 0 "sk-1".toList true
    { toolName := "web_search", sessionId := none } (by decide)

/- ---------------------------------------------------------------------
   Claim C1: failed decryption reads.
--------------------------------------------------------------------- -/

/-- Durable-store state holding one encrypted api-key row whose stored
value is malformed ciphertext (no colon separator), so decryption fails. -/
def c1Db : DbState :=
  { useFallback := false, durableThrows := false
    configs := [{ key := "ANTHROPIC_API_KEY", value := ['x'],
                  isEncrypted := true, category := .api_key, description := none }]
    fallbackConfigs := [], tools := [], fallbackTools := [] }

/-- State-manager state with an empty cache and the same key present in
process.env. -/
def c1EnvSt : SmState :=
  { tools := [], configurations := [], changeSinceSync := false
    env := [("ANTHROPIC_API_KEY", "sk-env".toList)] }

/-- C1 counterexample: with a cache miss, a failed decrypt in the store
and a matching process environment variable, getConfig answers the env
value - neither an error nor null - so the caller-visible result is not
value-unavailable as claimed (the stored ciphertext is still withheld). -/
theorem getConfig_env_fallback_counterexample :
    getDecryptedValue toyCipher "a"
        { key := "ANTHROPIC_API_KEY", value := ['x'], isEncrypted := true,
          category := .api_key, description := none } = none
    ∧ SmState.getConfig (DbState.api toyCipher "a" c1Db 0) c1EnvSt
        "ANTHROPIC_API_KEY" true = .ok (.str "sk-env".toList, c1EnvSt)
    ∧ JsValue.str "sk-env".toList ≠ .nullv := by
  refine ⟨rfl, rfl, ?_⟩
  intro h
  cases h

/-- C1 amended: when decryption of a stored encrypted value fails, the
store-level read answers null; the state manager answers null on a cache
hit, and on a cache miss answers its documented last-resort process.env
lookup (null when the variable is absent); no path surfaces an exception
and no path hands back the stored ciphertext as the value. -/
theorem decrypt_failure_value_unavailable
    (cm : CipherModel) (ekey : String) (db : DbState) (st : SmState)
    (key : String) (now : Nat) (cfg : Configuration)
    (hfb : db.onFallback = false)
    (hfind : db.configs.find? (fun c => c.key = key) = some cfg)
    (henc : cfg.isEncrypted = true)
    (hfail : getDecryptedValue cm ekey cfg = none) :
    dbGetConfiguration cm ekey db key true = .nullv
    ∧ (∀ cc, lookupAssoc st.configurations key = some cc → cc.isEncrypted = true →
        SmState.getConfig (DbState.api cm ekey db now) st key true
          = .ok (.nullv, st))
    ∧ (lookupAssoc st.configurations key = none →
        SmState.getConfig (DbState.api cm ekey db now) st key true
          = .ok (st.envLookup key, st))
    ∧ (∀ err, SmState.getConfig (DbState.api cm ekey db now) st key true
        ≠ .error err) := by
  have hdb : dbGetConfiguration cm ekey db key true = .nullv := by
    simp [dbGetConfiguration, hfb, hfind, henc, hfail]
  refine ⟨hdb, ?_, ?_, ?_⟩
  · intro cc hcc hccenc
    simp [SmState.getConfig, hcc, hccenc, DbState.api, hdb]
  · intro hmiss
    simp [SmState.getConfig, hmiss, DbState.api, hdb, SmState.envLookup]
  · intro err
    cases hcc : lookupAssoc st.configurations key with
    | some cc =>
        by_cases hccenc : cc.isEncrypted
        · simp [SmState.getConfig, hcc, hccenc, DbState.api]
        · simp [SmState.getConfig, hcc, hccenc]
    | none =>
        simp [SmState.getConfig, hcc, DbState.api, hdb]

/-- State-manager state whose cache holds the encrypted row. -/
def c1CacheSt : SmState :=
  { tools := []
    configurations := [("ANTHROPIC_API_KEY",
      { value := .str ['x'], isEncrypted := true, dirty := false })]
    changeSinceSync := false
    env := [] }

/-- C1 witness: the amended theorem at the concrete malformed row, read
through a cache hit. -/
theorem decrypt_failure_value_unavailable_witness :
    dbGetConfiguration toyCipher "a" c1Db "ANTHROPIC_API_KEY" true = .nullv
    ∧ SmState.getConfig (DbState.api toyCipher "a" c1Db 0) c1CacheSt
        "ANTHROPIC_API_KEY" true = .ok (.nullv, c1CacheSt) := by
  have h := decrypt_failure_value_unavailable toyCipher "a" c1Db c1CacheSt
    "ANTHROPIC_API_KEY" 0
    { key := "ANTHROPIC_API_KEY", value := ['x'], isEncrypted := true,
      category := .api_key, description := none }
    rfl rfl rfl rfl
  exact ⟨h.1, h.2.1 { value := .str ['x'], isEncrypted := true, dirty := false }
    rfl rfl⟩

/- ---------------------------------------------------------------------
   Claim C4: missing prompt and messages on POST /mcp/:provider.
--------------------------------------------------------------------- -/

/-- Provider clients used by the concrete route instances: both
initialized, both returning a fixed non-tool-use reply. -/
def c4Clients : Providers :=
  { anthropic := some (fun _ => .ok { rtype := "message", content := [] })
    openai := some (fun _ => .ok { choices := [] }) }

/-- Tool implementations that always succeed, for concrete instances. -/
def okToolImpls : ToolImpls :=
  { searchWeb := fun _ => .ok "searched"
    getWebpageContent := fun _ => .ok "content"
    fetchMultipleUrls := fun _ => .ok "batch"
    generateImage := fun _ => .ok "image"
    editImage := fun _ => .ok "edited"
    createImageVariation := fun _ => .ok "variation" }

/-- Request body with neither prompt nor messages. -/
def emptyBody : McpBody := { prompt := none, messages := none, model := none }

/-- C4 counterexample: a supported provider with neither prompt nor
messages is answered with status 500, not the claimed 400 - the
validation throw inside the handler is swallowed by the catch-all. -/
theorem mcp_missing_prompt_counterexample :
    mcpHandler c4Clients okToolImpls "anthropic" emptyBody
      = { status := 500,
          body := .errBody "Either prompt or messages must be provided" }
    ∧ (mcpHandler c4Clients okToolImpls "anthropic" emptyBody).status ≠ 400 := by
  refine ⟨rfl, ?_⟩
  intro h
  rw [show (mcpHandler c4Clients okToolImpls "anthropic" emptyBody).status = 500
    from rfl] at h
  exact absurd h (by decide)

/-- C4 amended: for every request on a supported provider with neither
prompt nor messages present, the response is HTTP 500 carrying an error
message (the thrown validation Error reaches the catch-all), never a
400. -/
theorem mcp_missing_prompt_gives_500
    (clients : Providers) (impls : ToolImpls) (provider : String) (body : McpBody)
    (hsupp : provider = "anthropic" ∨ provider = "openai")
    (hp : body.prompt = none) (hm : body.messages = none) :
    (mcpHandler clients impls provider body).status = 500
    ∧ ∃ m, (mcpHandler clients impls provider body).body = .errBody m := by
  rcases hsupp with hprov | hprov
  · subst hprov
    rw [mcpHandler]
    cases hc : clients.anthropic with
    | none => simp [handleAnthropicRequest, hc]
    | some complete => simp [handleAnthropicRequest, hc, hp, hm]
  · subst hprov
    rw [mcpHandler]
    cases hc : clients.openai with
    | none => simp [handleOpenAIRequest, hc]
    | some complete => simp [handleOpenAIRequest, hc, hp, hm]

/-- C4 witness: the amended theorem at the concrete empty body for the
anthropic provider. -/
theorem mcp_missing_prompt_gives_500_witness :
    (mcpHandler c4Clients okToolImpls "anthropic" emptyBody).status = 500
    ∧ ∃ m, (mcpHandler c4Clients okToolImpls "anthropic" emptyBody).body
        = .errBody m :=
  mcp_missing_prompt_gives_500 c4Clients okToolImpls "anthropic" emptyBody
    (Or.inl rfl) rfl rfl

/- ---------------------------------------------------------------------
   Claim C5: per-tool failure containment in executeTools.
--------------------------------------------------------------------- -/

/-- Implementations where web_search succeeds and web_content throws. -/
def c5Impls : ToolImpls :=
  { searchWeb := fun _ => .ok "results"
    getWebpageContent := fun _ => .error (.jsError "boom")
    fetchMultipleUrls := fun _ => .ok "batch"
    generateImage := fun _ => .ok "image"
    editImage := fun _ => .ok "edited"
    createImageVariation := fun _ => .ok "variation" }

/-- Batch of two tool_use entries, one succeeding and one throwing. -/
def c5Batch : List ContentItem :=
  [{ type := "tool_use", name := "web_search", input := "q" },
   { type := "tool_use", name := "web_content", input := "u" }]

/-- C5 counterexample: a batch of two entries where one implementation
throws does not yield a two-entry result list - the single try/catch
around the whole loop rethrows a wrapped error, aborting the sibling
call. -/
theorem executeTools_abort_counterexample :
    executeTools c5Impls c5Batch
      = .error (.jsError "Tool execution failed: boom")
    ∧ ∀ rs : List ToolResult, executeTools c5Impls c5Batch ≠ .ok rs := by
  refine ⟨rfl, ?_⟩
  intro rs h
  rw [show executeTools c5Impls c5Batch
      = .error (.jsError "Tool execution failed: boom") from rfl] at h
  cases h

theorem runToolLoop_ok_length (impls : ToolImpls) :
    ∀ items rs, runToolLoop impls items = .ok rs → rs.length = items.length := by
  intro items
  induction items with
  | nil => intro rs h; cases h; rfl
  | cons item rest ih =>
      intro rs h
      rw [runToolLoop] at h
      cases ho : execOne impls item.name item.input with
      | error e => rw [ho] at h; cases h
      | ok out =>
          rw [ho] at h
          cases hr : runToolLoop impls rest with
          | error e => rw [hr] at h; cases h
          | ok others =>
              rw [hr] at h
              cases h
              simp [ih others hr]

theorem runToolLoop_error_of_item (impls : ToolImpls) :
    ∀ items, (∃ item ∈ items, ∃ e, execOne impls item.name item.input = .error e) →
      ∃ e2, runToolLoop impls items = .error e2 := by
  intro items
  induction items with
  | nil => rintro ⟨item, hmem, _⟩; cases hmem
  | cons it rest ih =>
      rintro ⟨item, hmem, e, he⟩
      rw [runToolLoop]
      cases ho : execOne impls it.name it.input with
      | error e2 => exact ⟨e2, rfl⟩
      | ok out =>
          rcases List.mem_cons.mp hmem with hit | hit
          · subst hit; rw [ho] at he; cases he
          · obtain ⟨e2, hloop⟩ := ih ⟨item, hit, e, he⟩
            rw [hloop]
            exact ⟨e2, rfl⟩

/-- C5 amended: the per-call containment of executeTools covers only
unknown tool names, which produce an inline error payload without
touching siblings; an implementation that throws is caught solely by the
one try/catch around the whole batch, which rethrows a wrapped
Tool-execution-failed error, so no result list is produced at all -
result lists exist exactly when every dispatched call succeeded, and
then carry one entry per tool_use item. -/
theorem executeTools_containment_and_abort
    (impls : ToolImpls) (content : List ContentItem) :
    (∀ rs, executeTools impls content = .ok rs →
        rs.length = (content.filter (fun i => i.type = "tool_use")).length)
    ∧ (∀ name input,
        name ∉ (["web_search", "web_content", "web_batch", "generate_image",
          "edit_image", "create_image_variation"] : List String) →
        execOne impls name input = .ok (.errorPayload ("Unknown tool: " ++ name)))
    ∧ ((∃ item ∈ content.filter (fun i => i.type = "tool_use"),
          ∃ e, execOne impls item.name item.input = .error e) →
        ∃ e2, executeTools impls content = .error (wrapToolFailure e2)) := by
  refine ⟨?_, ?_, ?_⟩
  · intro rs h
    rw [executeTools] at h
    cases hl : runToolLoop impls (content.filter (fun i => i.type = "tool_use")) with
    | error e => rw [hl] at h; cases h
    | ok rs2 =>
        rw [hl] at h
        cases h
        exact runToolLoop_ok_length impls _ _ hl
  · intro name input hname
    simp only [List.mem_cons, List.not_mem_nil, or_false, not_or] at hname
    obtain ⟨h1, h2, h3, h4, h5, h6⟩ := hname
    rw [execOne, if_neg h1, if_neg h2, if_neg h3, if_neg h4, if_neg h5, if_neg h6]
  · intro hex
    obtain ⟨e2, hloop⟩ := runToolLoop_error_of_item impls _ hex
    exact ⟨e2, by rw [executeTools, hloop]⟩

/-- C5 witness: the amended theorem applied to a concrete two-entry batch
whose second entry names an unregistered tool - both entries are
answered, the unknown one by the inline error payload. -/
theorem executeTools_containment_witness :
    executeTools okToolImpls
        [{ type := "tool_use", name := "web_search", input := "q" },
         { type := "tool_use", name := "foo_bar", input := "x" }]
      = .ok [{ tool_name := "web_search", input := "q", output := .payload "searched" },
             { tool_name := "foo_bar", input := "x",
               output := .errorPayload "Unknown tool: foo_bar" }]
    ∧ ([{ tool_name := "web_search", input := "q", output := .payload "searched" },
        { tool_name := "foo_bar", input := "x",
          output := .errorPayload "Unknown tool: foo_bar" }] : List ToolResult).length
        = 2
    ∧ execOne okToolImpls "foo_bar" "x"
        = .ok (.errorPayload "Unknown tool: foo_bar") := by
  have h := executeTools_containment_and_abort okToolImpls
    [{ type := "tool_use", name := "web_search", input := "q" },
     { type := "tool_use", name := "foo_bar", input := "x" }]
  refine ⟨rfl, ?_, h.2.1 "foo_bar" "x" (by decide)⟩
  have hlen := h.1
    [{ tool_name := "web_search", input := "q", output := .payload "searched" },
     { tool_name := "foo_bar", input := "x",
       output := .errorPayload "Unknown tool: foo_bar" }] rfl
  exact hlen

/- ---------------------------------------------------------------------
   Claim C8: getConfiguration result type across stores.
--------------------------------------------------------------------- -/

/-- The api-key entry as the fallback store holds it. -/
def c8Entry : FbConfig :=
  { key := "OPENAI_API_KEY", value := "sk-1".toList, isEncrypted := true }

/-- Database state in fallback mode holding one api-key entry. -/
def c8FbDb : DbState :=
  { useFallback := true, durableThrows := false
    configs := []
    fallbackConfigs := [c8Entry]
    tools := [], fallbackTools := [] }

/-- Database state in durable mode holding the same key as a raw row. -/
def c8DurDb : DbState :=
  { useFallback := false, durableThrows := false
    configs := [{ key := "OPENAI_API_KEY", value := "sk-1".toList,
                  isEncrypted := false, category := .api_key, description := none }]
    fallbackConfigs := [], tools := [], fallbackTools := [] }

/-- C8: the durable path of getConfiguration answers a string (or null),
but the fallback path answers the whole stored configuration object and
ignores the decrypt flag, so the result type depends on which store
served the call - against the documented string-or-null contract that
both stores are supposed to share. -/
theorem getConfiguration_fallback_type_divergence :
    dbGetConfiguration toyCipher "a" c8FbDb "OPENAI_API_KEY" true = .obj c8Entry
    ∧ dbGetConfiguration toyCipher "a" c8DurDb "OPENAI_API_KEY" true
      = .str "sk-1".toList
    ∧ JsValue.obj c8Entry ≠ .str "sk-1".toList
    ∧ JsValue.obj c8Entry ≠ .nullv := by
  refine ⟨rfl, rfl, ?_, ?_⟩ <;> (intro h; cases h)

end MCP
